import Mathlib

/-!
Verification of the kernel-api conversion service core against its
natural-language specification.  The Python source is shallowly embedded:
pure helpers become Lean functions, exception-raising code returns
`Except String _`, the in-memory job map becomes an association list, and
the filesystem is abstracted as an existence predicate (for output-path
probing) or as an explicit directory tree (for the file reaper).
Float values are modelled as rationals, except where normalisation of
vectors forces real arithmetic (vertex-normal computation).
-/

namespace KernelApi

/-! ## Quality resolver (`ConversionPipeline._get_quality_parameters`) -/

/-- The preset table built in `ConversionPipeline.__init__`:
`low/medium/high/ultra` mapped to `(deflection, angular_deflection)`. -/
def quality_presets (q : String) : Option (ℚ × ℚ) :=
  if q = "low" then some (1, 1)
  else if q = "medium" then some (1/10, 1/2)
  else if q = "high" then some (1/100, 1/10)
  else if q = "ultra" then some (1/1000, 1/20)
  else none

/-- Python's `x or d` applied to an `Optional[float] x`: `None` and the
falsy value `0.0` both fall back to `d`. -/
def pyOrFloat (x : Option ℚ) (d : ℚ) : ℚ :=
  match x with
  | none => d
  | some v => if v = 0 then d else v

/-- `ConversionPipeline._get_quality_parameters`: if both explicit values
are non-`None` they are returned verbatim; otherwise the preset (defaulting
to `medium` for unknown names) fills whichever field Python considers
falsy (absent or zero). -/
def get_quality_parameters (quality : String)
    (deflection angular_deflection : Option ℚ) : ℚ × ℚ :=
  match deflection, angular_deflection with
  | some d, some a => (d, a)
  | _, _ =>
    let preset := (quality_presets quality).getD (1/10, 1/2)
    (pyOrFloat deflection preset.1, pyOrFloat angular_deflection preset.2)

/-! ## Mesh data model and validation
(`MeshData`, `ConversionPipeline._validate_mesh` / `_apply_mesh_controls`) -/

/-- `MeshData`: vertices, index-triple faces, optional per-vertex normals and
a diagnostic metadata mapping.  Floats are modelled as rationals; metadata
values as strings. -/
structure MeshData where
  vertices : List (ℚ × ℚ × ℚ)
  faces : List (Nat × Nat × Nat)
  normals : List (ℚ × ℚ × ℚ)
  metadata : List (String × String)
deriving Repr, DecidableEq

/-- Python's `len(set(face)) < 3` for an index triple: the three indices are
not pairwise distinct. -/
def degenerateFace (f : Nat × Nat × Nat) : Bool :=
  f.1 == f.2.1 || f.1 == f.2.2 || f.2.1 == f.2.2

/-- `ConversionPipeline._validate_mesh`: raises (error) on empty vertices,
then on empty faces; the degenerate-face scan only produces a warning flag
(logged in the source) and never fails. -/
def validate_mesh (m : MeshData) : Except String Bool :=
  if m.vertices.length = 0 then .error "Mesh has no vertices"
  else if m.faces.length = 0 then .error "Mesh has no faces"
  else .ok (m.faces.any degenerateFace)

/-- `ConversionPipeline._apply_mesh_controls` with no decimation/smoothing
flags: validates and returns the mesh unchanged. -/
def apply_mesh_controls (m : MeshData) : Except String MeshData :=
  (validate_mesh m).map fun _ => m

/-! ## Output path generation (`ConversionPipeline._generate_output_path`) -/

/-- Index of the last occurrence of `c` in `cs` (Python `str.rfind`),
`none` when absent. -/
def rfindChar (c : Char) : List Char → Option Nat
  | [] => none
  | x :: xs =>
    match rfindChar c xs with
    | some j => some (j + 1)
    | none => if x = c then some 0 else none

/-- `os.path.splitext` (posix): split at the last dot, provided it lies
after the last `/` and at least one non-dot character stands between them
(so dotfiles such as `.bashrc` are not split). -/
def pySplitext (p : String) : String × String :=
  let cs := p.data
  let sepIndex : Int := match rfindChar '/' cs with | some i => (i : Int) | none => -1
  match rfindChar '.' cs with
  | none => (p, "")
  | some d =>
    if sepIndex < (d : Int) ∧
        ((cs.take d).drop (sepIndex + 1).toNat).any (fun ch => ch ≠ '.') then
      (⟨cs.take d⟩, ⟨cs.drop d⟩)
    else (p, "")

/-- `os.path.basename` (posix): everything after the last `/`. -/
def pyBasename (p : String) : String :=
  match rfindChar '/' p.data with
  | some i => ⟨p.data.drop (i + 1)⟩
  | none => p

/-- Python `str.lower` for the ASCII format tokens used here. -/
def pyToLower (s : String) : String := ⟨s.data.map Char.toLower⟩

/-- Python `s.replace(".", "")`: remove every dot. -/
def stripDots (s : String) : String := ⟨s.data.filter (fun ch => ch ≠ '.')⟩

/-- `settings.OUTPUT_DIR` from `app/core/config.py`. -/
def OUTPUT_DIR : String := "outputs"

/-- The `k`-th path probed by `_generate_output_path`: the plain
`outputs/<base>.<fmt>` first, then `outputs/<base>_k.<fmt>` for `k ≥ 1`. -/
def candidatePath (base fmtLower : String) : Nat → String
  | 0 => OUTPUT_DIR ++ "/" ++ base ++ "." ++ fmtLower
  | Nat.succ k =>
    OUTPUT_DIR ++ "/" ++ base ++ "_" ++ toString (k + 1) ++ "." ++ fmtLower

/-- The collision-probing `while os.path.exists(output_path)` loop, with the
filesystem abstracted as the existence predicate `ex` and the unbounded
`while` modelled by explicit fuel. -/
def probeLoop (ex : String → Bool) (base fmtLower : String) :
    Nat → Nat → Option String
  | 0, _ => none
  | fuel + 1, k =>
    let p := candidatePath base fmtLower k
    if ex p then probeLoop ex base fmtLower fuel (k + 1) else some p

/-- `ConversionPipeline._generate_output_path`: base name from
`splitext(basename(input_path))[0]`, format lowercased, then probe. -/
def generate_output_path (ex : String → Bool) (input_path output_format : String)
    (fuel : Nat) : Option String :=
  probeLoop ex (pySplitext (pyBasename input_path)).1 (pyToLower output_format) fuel 0

/-! ## Job tracker and service boundary
(`ConversionService`, `app/schemas/conversion.py`) -/

/-- `ConversionStatus` from `app/schemas/conversion.py`. -/
inductive ConversionStatus where
  | pending
  | in_progress
  | completed
  | failed
deriving Repr, DecidableEq

/-- `ConversionResponse` from `app/schemas/conversion.py`. -/
structure ConversionResponse where
  job_id : String
  status : ConversionStatus
  message : Option String
  output_file : Option String
  error : Option String
deriving Repr, DecidableEq

/-- The tracker's in-memory `jobs` dict, as an association list where the
most recent binding for a key shadows older ones. -/
abbrev JobMap := List (String × ConversionResponse)

/-- Dict assignment `self.jobs[job_id] = r`. -/
def jobSet (m : JobMap) (k : String) (v : ConversionResponse) : JobMap :=
  (k, v) :: m

/-- `ConversionService.get_job_status`: `self.jobs.get(job_id)`, `none`
standing for the NotFound outcome. -/
def get_job_status (m : JobMap) (k : String) : Option ConversionResponse :=
  (m.find? (fun e => e.1 == k)).map (fun e => e.2)

/-- Python `str.upper` for the ASCII format tokens used here. -/
def pyToUpper (s : String) : String := ⟨s.data.map Char.toUpper⟩

/-- Outcome of `ConversionService.convert_sync`: either a real pipeline
output path, or the degraded-mode placeholder file (path plus the text
lines written to it). -/
inductive SyncResult where
  | real (path : String)
  | placeholder (path : String) (content : List String)
deriving Repr, DecidableEq

/-- The path of a sync outcome (both branches of the source return a
plain path string). -/
def SyncResult.path : SyncResult → String
  | .real p => p
  | .placeholder p _ => p

/-- The lines `convert_sync` writes into the placeholder file. -/
def placeholderContent (input_path output_format : String)
    (deflection angular_deflection : ℚ) (errMsg : String) : List String :=
  ["# Placeholder " ++ pyToUpper output_format ++ " file",
   "# Source: " ++ pyBasename input_path,
   "# Deflection: " ++ toString deflection,
   "# Angular Deflection: " ++ toString angular_deflection,
   "# Error: " ++ errMsg]

/-- `ConversionService.convert_sync`.  The pipeline call is abstracted as
its outcome `pipeline_result` (output path or raised error message); the
`settings.ENABLE_OPENCASCADE` flag — the source's model of geometry-kernel
availability — is the parameter `enable_opencascade`.  On pipeline failure
with the kernel disabled a placeholder file is written and returned;
otherwise the failure is re-raised. -/
def convert_sync (enable_opencascade : Bool)
    (pipeline_result : Except String String)
    (input_path output_format : String)
    (deflection angular_deflection : ℚ) : Except String SyncResult :=
  match pipeline_result with
  | .ok output_path => .ok (.real output_path)
  | .error e =>
    if !enable_opencascade then
      .ok (.placeholder
        (OUTPUT_DIR ++ "/" ++ (pySplitext (pyBasename input_path)).1
          ++ "." ++ output_format)
        (placeholderContent input_path output_format
          deflection angular_deflection e))
    else .error e

/-- The `IN_PROGRESS` record written at the start of `convert_async`. -/
def inProgressRec (job_id : String) : ConversionResponse :=
  ⟨job_id, .in_progress, some "Conversion in progress", none, none⟩

/-- The `COMPLETED` record written on success. -/
def completedRec (job_id path : String) : ConversionResponse :=
  ⟨job_id, .completed, some "Conversion completed successfully",
    some path, none⟩

/-- The `FAILED` record written when the conversion raised. -/
def failedRec (job_id err : String) : ConversionResponse :=
  ⟨job_id, .failed, some "Conversion failed", none, some err⟩

/-- `ConversionService.convert_async`: immediately records `IN_PROGRESS`,
invokes `convert_sync`, then records `COMPLETED` with the output file or
`FAILED` with the error message.  The value is the pair of job maps after
the initial and after the final write; the `Except` layer records whether
an exception escapes the call (the source's `try/except` captures all, so
every branch is `.ok`). -/
def convert_async (jobs : JobMap) (job_id : String)
    (enable_opencascade : Bool) (pipeline_result : Except String String)
    (input_path output_format : String)
    (deflection angular_deflection : ℚ) :
    Except String (JobMap × JobMap) :=
  let jobs1 := jobSet jobs job_id (inProgressRec job_id)
  match convert_sync enable_opencascade pipeline_result input_path
      output_format deflection angular_deflection with
  | .ok r => .ok (jobs1, jobSet jobs1 job_id (completedRec job_id r.path))
  | .error e => .ok (jobs1, jobSet jobs1 job_id (failedRec job_id e))

/-- The job state machine of the spec:
`PENDING → IN_PROGRESS → {COMPLETED | FAILED}`. -/
def stepAllowed : ConversionStatus → ConversionStatus → Bool
  | .pending, .in_progress => true
  | .in_progress, .completed => true
  | .in_progress, .failed => true
  | _, _ => false

/-- Terminal statuses. -/
def terminalStatus : ConversionStatus → Bool
  | .completed => true
  | .failed => true
  | _ => false

/-! ## Format registries and dispatch
(`app/core/config.py`, `ConversionPipeline.convert`, API upload check) -/

/-- `settings.SUPPORTED_INPUT_FORMATS`. -/
def SUPPORTED_INPUT_FORMATS : List String :=
  ["step", "stp", "iges", "igs", "brep"]

/-- `settings.SUPPORTED_OUTPUT_FORMATS`. -/
def SUPPORTED_OUTPUT_FORMATS : List String := ["stl", "obj", "glb", "gltf"]

/-- The keys of the `ConversionPipeline.converters` registry built in
`__init__`. -/
def converterKeys : List String := ["step", "stp", "iges", "igs", "stl"]

/-- The keys of the `ConversionPipeline.exporters` registry built in
`__init__`. -/
def exporterKeys : List String :=
  ["stl", "stl_ascii", "stl_binary", "obj", "glb", "gltf"]

/-- `os.path.splitext(p)[1].lower().replace('.', '')`: the extension token
used both by `ConversionPipeline.convert` and by the upload endpoint. -/
def inputExtOf (p : String) : String := stripDots (pyToLower (pySplitext p).2)

/-- The dispatch prefix of `ConversionPipeline.convert` (steps 1–3):
input-existence check, converter lookup by extension, exporter lookup by
output token; `.ok ()` stands for reaching the later pipeline steps. -/
def convertDispatch (fileExists : Bool) (input_path output_format : String) :
    Except String Unit :=
  if !fileExists then .error ("Input file not found: " ++ input_path)
  else
    let input_ext := inputExtOf input_path
    if !(converterKeys.contains input_ext) then
      .error ("Unsupported input format: " ++ input_ext)
    else if !(exporterKeys.contains (pyToLower output_format)) then
      .error ("Unsupported output format: " ++ output_format)
    else .ok ()

/-- The upload-validation check of the `convert_file` endpoint: the
uploaded filename's extension must be in `SUPPORTED_INPUT_FORMATS`. -/
def uploadAccepts (filename : String) : Bool :=
  SUPPORTED_INPUT_FORMATS.contains (inputExtOf filename)

/-! ## File reaper (`FileCleanupService`) -/

/-- One filesystem entry: a regular file with its `st_mtime`, or a
directory with its entries.  Times are integer seconds. -/
inductive Entry where
  | file (name : String) (mtime : Int)
  | dir (name : String) (entries : List Entry)

/-- `FileCleanupService._is_file_expired`: file age (`now − mtime`)
strictly greater than the TTL. -/
def is_file_expired (now ttl mtime : Int) : Bool := now - mtime > ttl

/-- `FileCleanupService._clean_directory`, one pass over a directory's
entries in order: delete an expired file unless its absolute path is in
the recently-cleaned set (`self._cleaned_files`, threaded explicitly);
recurse into subdirectories and remove any left empty.  Returns the
surviving entries together with the updated cleaned set. -/
def clean_directory (now ttl : Int) :
    List String → String → List Entry → List Entry × List String
  | cleaned, _, [] => ([], cleaned)
  | cleaned, dirPath, Entry.file n m :: es =>
    let p := dirPath ++ "/" ++ n
    if is_file_expired now ttl m && !(cleaned.contains p) then
      clean_directory now ttl (p :: cleaned) dirPath es
    else
      let rc := clean_directory now ttl cleaned dirPath es
      (Entry.file n m :: rc.1, rc.2)
  | cleaned, dirPath, Entry.dir n des :: es =>
    let sub := clean_directory now ttl cleaned (dirPath ++ "/" ++ n) des
    let rest := clean_directory now ttl sub.2 dirPath es
    if sub.1.isEmpty then rest else (Entry.dir n sub.1 :: rest.1, rest.2)

/-- The absolute paths of all regular files in a tree rooted at `dirPath`,
in traversal order. -/
def filePaths : String → List Entry → List String
  | _, [] => []
  | dirPath, Entry.file n _ :: es =>
    (dirPath ++ "/" ++ n) :: filePaths dirPath es
  | dirPath, Entry.dir n des :: es =>
    filePaths (dirPath ++ "/" ++ n) des ++ filePaths dirPath es

/-- The cleanup-pass semantics claim C7 describes, with no dedupe set:
drop every expired file, keep every fresh one, recursively reap
subdirectories and drop those left empty. -/
def reapSpecC7 (now ttl : Int) : List Entry → List Entry
  | [] => []
  | Entry.file n m :: es =>
    if is_file_expired now ttl m then reapSpecC7 now ttl es
    else Entry.file n m :: reapSpecC7 now ttl es
  | Entry.dir n des :: es =>
    let des2 := reapSpecC7 now ttl des
    if des2.isEmpty then reapSpecC7 now ttl es
    else Entry.dir n des2 :: reapSpecC7 now ttl es

/-! ## Vertex normal computation
(`STEPConverterOCP._calculate_vertex_normals`) -/

/-- 3D float vectors, modelled over ℝ (componentwise `+`, `•`, `0` from the
product instances). -/
abbrev Vec3 := ℝ × ℝ × ℝ

/-- `np.cross` on 3D vectors. -/
def cross (u v : Vec3) : Vec3 :=
  (u.2.1 * v.2.2 - u.2.2 * v.2.1,
   u.2.2 * v.1 - u.1 * v.2.2,
   u.1 * v.2.1 - u.2.1 * v.1)

/-- `np.linalg.norm` on 3D vectors. -/
noncomputable def vnorm (v : Vec3) : ℝ :=
  Real.sqrt (v.1 ^ 2 + v.2.1 ^ 2 + v.2.2 ^ 2)

/-- The source's guarded normalisation, used both on face normals and on
the final accumulated vertex normals: `if length > 0: v /= length`.  A
zero vector is left untouched — never divided. -/
noncomputable def normalizePos (v : Vec3) : Vec3 :=
  if 0 < vnorm v then (vnorm v)⁻¹ • v else v

/-- The unnormalised face normal: the cross product of the face's two edge
vectors (`v1 − v0`, `v2 − v0`), vertices fetched by index. -/
def rawFaceNormal (vertices : List Vec3) (f : Nat × Nat × Nat) : Vec3 :=
  cross (vertices.getD f.2.1 0 - vertices.getD f.1 0)
        (vertices.getD f.2.2 0 - vertices.getD f.1 0)

/-- The face normal the source accumulates: the cross product, normalised
when its length is positive. -/
noncomputable def faceNormal (vertices : List Vec3) (f : Nat × Nat × Nat) :
    Vec3 :=
  normalizePos (rawFaceNormal vertices f)

/-- `for vertex_idx in face: normals[vertex_idx] += fn`: add a face's
vector `g f` into the accumulator slots of the face's three indices. -/
def accumFace (g : Nat × Nat × Nat → Vec3) (acc : List Vec3)
    (f : Nat × Nat × Nat) : List Vec3 :=
  let fn := g f
  let a1 := acc.set f.1 (acc.getD f.1 0 + fn)
  let a2 := a1.set f.2.1 (a1.getD f.2.1 0 + fn)
  a2.set f.2.2 (a2.getD f.2.2 0 + fn)

/-- `STEPConverterOCP._calculate_vertex_normals`: start from zero
accumulators, fold every face's *normalised* face normal into its three
vertex slots, then normalise each accumulated vertex normal (zero-length
accumulators stay zero). -/
noncomputable def calculate_vertex_normals (vertices : List Vec3)
    (faces : List (Nat × Nat × Nat)) : List Vec3 :=
  (faces.foldl (accumFace (faceNormal vertices))
    (List.replicate vertices.length 0)).map normalizePos

/-- The computation claim C6 describes: identical, except that the
*unnormalised* cross product is accumulated. -/
noncomputable def vertexNormalsClaimC6 (vertices : List Vec3)
    (faces : List (Nat × Nat × Nat)) : List Vec3 :=
  (faces.foldl (accumFace (rawFaceNormal vertices))
    (List.replicate vertices.length 0)).map normalizePos

/-- How many of a face's three slots hold index `i`, as a real scalar. -/
def occ (i : Nat) (f : Nat × Nat × Nat) : ℝ :=
  (if f.1 = i then 1 else 0) + (if f.2.1 = i then 1 else 0) +
    (if f.2.2 = i then 1 else 0)

/-! ## Theorems -/

/-- Helper for C2: the probe loop returns the first candidate, from start
index `n`, that does not exist. -/
theorem probeLoop_first_free (ex : String → Bool) (base fl : String) :
    ∀ (fuel n k : Nat), n ≤ k → k - n < fuel →
      (∀ j, n ≤ j → j < k → ex (candidatePath base fl j) = true) →
      ex (candidatePath base fl k) = false →
      probeLoop ex base fl fuel n = some (candidatePath base fl k) := by
  intro fuel
  induction fuel with
  | zero => intro n k _ h; omega
  | succ fuel ih =>
    intro n k hnk hfuel hall hfree
    rcases Nat.eq_or_lt_of_le hnk with heq | hlt
    · subst heq
      simp [probeLoop, hfree]
    · have hex : ex (candidatePath base fl n) = true := hall n le_rfl hlt
      simp only [probeLoop, hex, if_true]
      exact ih (n + 1) k hlt (by omega) (fun j h1 h2 => hall j (by omega) h2) hfree

/-- C1: Quality resolution.  Resolving any of the four preset names with both
explicit values `None` yields exactly that preset's values (in particular
`high ↦ (0.01, 0.1)`); any unknown preset name yields the `medium` preset
`(0.1, 0.5)`; and whenever both explicit values `0.05` and `0.2` are
supplied the result is exactly `(0.05, 0.2)` regardless of the preset name. -/
theorem quality_resolution_correct :
    (get_quality_parameters "low" none none = (1, 1) ∧
     get_quality_parameters "medium" none none = (1/10, 1/2) ∧
     get_quality_parameters "high" none none = (1/100, 1/10) ∧
     get_quality_parameters "ultra" none none = (1/1000, 1/20)) ∧
    (∀ q : String, q ≠ "low" → q ≠ "medium" → q ≠ "high" → q ≠ "ultra" →
      get_quality_parameters q none none = (1/10, 1/2)) ∧
    (∀ q : String,
      get_quality_parameters q (some (1/20)) (some (1/5)) = (1/20, 1/5)) := by
  refine ⟨⟨?_, ?_, ?_, ?_⟩, ?_, ?_⟩
  · simp [get_quality_parameters, quality_presets, pyOrFloat]
  · simp [get_quality_parameters, quality_presets, pyOrFloat]
  · simp [get_quality_parameters, quality_presets, pyOrFloat]
  · simp [get_quality_parameters, quality_presets, pyOrFloat]
  · intro q h1 h2 h3 h4
    simp [get_quality_parameters, quality_presets, pyOrFloat, h1, h2, h3, h4]
  · intro q
    simp [get_quality_parameters]

/-- Witness for C1 at the concrete unknown preset name `"bogus"`. -/
theorem quality_resolution_correct_witness :
    ("bogus" : String) ≠ "low" ∧ ("bogus" : String) ≠ "medium" ∧
    ("bogus" : String) ≠ "high" ∧ ("bogus" : String) ≠ "ultra" ∧
    get_quality_parameters "bogus" none none = (1/10, 1/2) :=
  ⟨by decide, by decide, by decide, by decide,
    quality_resolution_correct.2.1 "bogus"
      (by decide) (by decide) (by decide) (by decide)⟩

/-- C9: Zero-tolerance asymmetry.  When both explicit values are supplied
they are returned verbatim even if one is zero (`resolve(q, 0, 0.2) =
(0, 0.2)`), but a lone explicit zero is treated as absent and the preset's
value is used instead (`resolve(q, 0, None)` returns the resolved preset
pair, in particular the preset's deflection). -/
theorem zero_tolerance_asymmetry :
    (∀ q : String, get_quality_parameters q (some 0) (some (1/5)) = (0, 1/5)) ∧
    (∀ q : String, get_quality_parameters q (some 0) none =
      (quality_presets q).getD (1/10, 1/2)) := by
  constructor
  · intro q
    simp [get_quality_parameters]
  · intro q
    simp [get_quality_parameters, pyOrFloat]

/-- C3: Mesh validation fails hard exactly on empty vertices or empty faces;
for every mesh with non-empty vertices and faces — in particular one
containing a degenerate face — it does not fail: the degenerate scan only
computes a warning flag, and the mesh is returned unchanged. -/
theorem mesh_validation_degenerate_is_warning (m : MeshData) :
    (m.vertices = [] → validate_mesh m = .error "Mesh has no vertices") ∧
    (m.vertices ≠ [] → m.faces = [] →
      validate_mesh m = .error "Mesh has no faces") ∧
    (m.vertices ≠ [] → m.faces ≠ [] →
      validate_mesh m = .ok (m.faces.any degenerateFace) ∧
      apply_mesh_controls m = .ok m) := by
  refine ⟨?_, ?_, ?_⟩
  · intro hv
    simp [validate_mesh, hv]
  · intro hv hf
    simp [validate_mesh, hv, hf]
  · intro hv hf
    constructor
    · simp [validate_mesh, hv, hf]
    · simp [apply_mesh_controls, validate_mesh, hv, hf, Except.map]

/-- Witness for C3 at a concrete mesh whose second face `(0,0,1)` is
degenerate: validation does not fail and returns the mesh unchanged. -/
theorem mesh_validation_degenerate_is_warning_witness :
    (MeshData.mk [(0,0,0),(1,0,0),(0,1,0)] [(0,1,2),(0,0,1)] [] []).vertices ≠ [] ∧
    (MeshData.mk [(0,0,0),(1,0,0),(0,1,0)] [(0,1,2),(0,0,1)] [] []).faces ≠ [] ∧
    degenerateFace (0,0,1) = true ∧
    (validate_mesh (MeshData.mk [(0,0,0),(1,0,0),(0,1,0)] [(0,1,2),(0,0,1)] [] []) =
       .ok (([(0,1,2),(0,0,1)] : List (Nat × Nat × Nat)).any degenerateFace) ∧
     apply_mesh_controls (MeshData.mk [(0,0,0),(1,0,0),(0,1,0)] [(0,1,2),(0,0,1)] [] []) =
       .ok (MeshData.mk [(0,0,0),(1,0,0),(0,1,0)] [(0,1,2),(0,0,1)] [] [])) :=
  ⟨by simp, by simp, by decide,
    (mesh_validation_degenerate_is_warning
      (MeshData.mk [(0,0,0),(1,0,0),(0,1,0)] [(0,1,2),(0,0,1)] [] [])).2.2
      (by simp) (by simp)⟩

/-- C2: Output-path generation never overwrites.  In general, whenever the
first `k` generated candidates all exist and the `k`-th does not, the
pipeline returns exactly that `k`-th candidate — a path that does not
exist.  Concretely, with `outputs/cube.stl` present a conversion of
`uploads/cube.step` to `stl` yields `outputs/cube_1.stl`, and with that
present too it yields `outputs/cube_2.stl`. -/
theorem output_path_never_overwrites :
    (∀ (ex : String → Bool) (input_path output_format : String) (k fuel : Nat),
      k < fuel →
      (∀ j, j < k →
        ex (candidatePath (pySplitext (pyBasename input_path)).1
             (pyToLower output_format) j) = true) →
      ex (candidatePath (pySplitext (pyBasename input_path)).1
           (pyToLower output_format) k) = false →
      ∃ p, generate_output_path ex input_path output_format fuel = some p ∧
        p = candidatePath (pySplitext (pyBasename input_path)).1
              (pyToLower output_format) k ∧
        ex p = false) ∧
    generate_output_path
      (fun p => (["outputs/cube.stl"] : List String).contains p)
      "uploads/cube.step" "stl" 3 = some "outputs/cube_1.stl" ∧
    generate_output_path
      (fun p => (["outputs/cube.stl", "outputs/cube_1.stl"] : List String).contains p)
      "uploads/cube.step" "stl" 3 = some "outputs/cube_2.stl" := by
  refine ⟨?_, by decide, by decide⟩
  intro ex input_path output_format k fuel hk hall hfree
  refine ⟨_, ?_, rfl, hfree⟩
  exact probeLoop_first_free ex _ _ fuel 0 k (Nat.zero_le k) (by omega)
    (fun j _ hj => hall j hj) hfree

/-- Witness for C2: the general first-free-candidate property applied at the
concrete filesystem containing only `outputs/cube.stl`. -/
theorem output_path_never_overwrites_witness :
    ((1 : Nat) < 3 ∧
     (∀ j, j < 1 →
       (fun p => (["outputs/cube.stl"] : List String).contains p)
         (candidatePath (pySplitext (pyBasename "uploads/cube.step")).1
           (pyToLower "stl") j) = true) ∧
     (fun p => (["outputs/cube.stl"] : List String).contains p)
       (candidatePath (pySplitext (pyBasename "uploads/cube.step")).1
         (pyToLower "stl") 1) = false) ∧
    (∃ p, generate_output_path
        (fun p => (["outputs/cube.stl"] : List String).contains p)
        "uploads/cube.step" "stl" 3 = some p ∧
      p = candidatePath (pySplitext (pyBasename "uploads/cube.step")).1
            (pyToLower "stl") 1 ∧
      (fun p => (["outputs/cube.stl"] : List String).contains p) p = false) :=
  ⟨⟨by decide, by decide, by decide⟩,
    output_path_never_overwrites.1
      (fun p => (["outputs/cube.stl"] : List String).contains p)
      "uploads/cube.step" "stl" 1 3 (by decide) (by decide) (by decide)⟩

/-- Helper: writing a record for a job id and polling that id reads it back. -/
theorem get_job_status_set (m : JobMap) (k : String) (v : ConversionResponse) :
    get_job_status (jobSet m k v) k = some v := by
  simp [get_job_status, jobSet]

/-- Helper: a job id bound by no entry of the map polls as `none`. -/
theorem get_job_status_not_found (m : JobMap) (idq : String)
    (h : ∀ e ∈ m, e.1 ≠ idq) : get_job_status m idq = none := by
  induction m with
  | nil => rfl
  | cons e t ih =>
    have he : (e.1 == idq) = false :=
      beq_eq_false_iff_ne.mpr (h e (List.mem_cons_self e t))
    simp only [get_job_status, List.find?, he]
    exact ih (fun x hx => h x (List.mem_cons_of_mem _ hx))

/-- Helper: `n` successive polls of a pure read all return the same value. -/
theorem poll_replicate {α : Type} (n : Nat) (x : α) :
    (List.range n).map (fun _ => x) = List.replicate n x := by
  induction n with
  | zero => rfl
  | succ k ih => simp [List.range_succ, ih, List.replicate_succ']

/-- C4: Job state machine.  Submission never raises, immediately records
`IN_PROGRESS` (never observably `PENDING`), the final record is exactly one
of `COMPLETED`/`FAILED` (`COMPLETED` with the output file exactly when the
underlying conversion succeeded), the observed transition respects the
state machine whose terminal states have no outgoing transition, repeated
polls of the final map return the same stable record, and polling an id
bound by no entry returns NotFound (`none`). -/
theorem job_state_machine_invariant (jobs : JobMap) (job_id : String)
    (enable : Bool) (pres : Except String String) (ip ofmt : String)
    (d a : ℚ) :
    (∃ jobs1 jobs2 r1 r2,
      convert_async jobs job_id enable pres ip ofmt d a = .ok (jobs1, jobs2) ∧
      get_job_status jobs1 job_id = some r1 ∧ r1.status = .in_progress ∧
      get_job_status jobs2 job_id = some r2 ∧
      (r2.status = .completed ∨ r2.status = .failed) ∧
      stepAllowed r1.status r2.status = true ∧
      (∀ r, convert_sync enable pres ip ofmt d a = .ok r →
        r2.status = .completed ∧ r2.output_file = some r.path) ∧
      (∀ e, convert_sync enable pres ip ofmt d a = .error e →
        r2.status = .failed) ∧
      (∀ n : Nat, (List.range n).map (fun _ => get_job_status jobs2 job_id) =
        List.replicate n (some r2))) ∧
    (∀ s t : ConversionStatus, terminalStatus s = true →
      stepAllowed s t = false) ∧
    (∀ (m : JobMap) (idq : String), (∀ e ∈ m, e.1 ≠ idq) →
      get_job_status m idq = none) := by
  refine ⟨?_, ?_, fun m idq h => get_job_status_not_found m idq h⟩
  case refine_2 =>
    intro s t h
    cases s <;> cases t <;> simp_all [terminalStatus, stepAllowed]
  cases hs : convert_sync enable pres ip ofmt d a with
  | ok r =>
    refine ⟨jobSet jobs job_id (inProgressRec job_id),
      jobSet (jobSet jobs job_id (inProgressRec job_id)) job_id
        (completedRec job_id r.path),
      inProgressRec job_id, completedRec job_id r.path,
      ?_, get_job_status_set _ _ _, rfl, get_job_status_set _ _ _,
      Or.inl rfl, rfl, ?_, ?_, ?_⟩
    · simp [convert_async, hs]
    · intro r' hr'
      cases hr'
      exact ⟨rfl, rfl⟩
    · intro e he
      cases he
    · intro n
      rw [get_job_status_set]
      exact poll_replicate n _
  | error e =>
    refine ⟨jobSet jobs job_id (inProgressRec job_id),
      jobSet (jobSet jobs job_id (inProgressRec job_id)) job_id
        (failedRec job_id e),
      inProgressRec job_id, failedRec job_id e,
      ?_, get_job_status_set _ _ _, rfl, get_job_status_set _ _ _,
      Or.inr rfl, rfl, ?_, ?_, ?_⟩
    · simp [convert_async, hs]
    · intro r' hr'
      cases hr'
    · intro e' he'
      cases he'
      rfl
    · intro n
      rw [get_job_status_set]
      exact poll_replicate n _

/-- Witness for C4 at a concrete successful submission on an empty tracker. -/
theorem job_state_machine_invariant_witness :
    (∃ jobs1 jobs2 r1 r2,
      convert_async [] "job-1" true (.ok "outputs/cube.stl")
        "uploads/cube.step" "stl" (1/10) (1/2) = .ok (jobs1, jobs2) ∧
      get_job_status jobs1 "job-1" = some r1 ∧ r1.status = .in_progress ∧
      get_job_status jobs2 "job-1" = some r2 ∧
      (r2.status = .completed ∨ r2.status = .failed) ∧
      stepAllowed r1.status r2.status = true ∧
      (∀ r, convert_sync true (.ok "outputs/cube.stl") "uploads/cube.step"
          "stl" (1/10) (1/2) = .ok r →
        r2.status = .completed ∧ r2.output_file = some r.path) ∧
      (∀ e, convert_sync true (.ok "outputs/cube.stl") "uploads/cube.step"
          "stl" (1/10) (1/2) = .error e → r2.status = .failed) ∧
      (∀ n : Nat, (List.range n).map (fun _ => get_job_status jobs2 "job-1") =
        List.replicate n (some r2))) ∧
    (∀ s t : ConversionStatus, terminalStatus s = true →
      stepAllowed s t = false) ∧
    (∀ (m : JobMap) (idq : String), (∀ e ∈ m, e.1 ≠ idq) →
      get_job_status m idq = none) :=
  job_state_machine_invariant [] "job-1" true (.ok "outputs/cube.stl")
    "uploads/cube.step" "stl" (1/10) (1/2)

/-- C5: The async submission never raises; every error of the underlying
conversion is captured as a `FAILED` record carrying exactly that error
message, and every success as a `COMPLETED` record carrying the output
file. -/
theorem async_captures_all_failures (jobs : JobMap) (job_id : String)
    (enable : Bool) (pres : Except String String) (ip ofmt : String)
    (d a : ℚ) :
    (∃ ms, convert_async jobs job_id enable pres ip ofmt d a = .ok ms) ∧
    (∀ e, convert_sync enable pres ip ofmt d a = .error e →
      ∃ j1 j2 rec, convert_async jobs job_id enable pres ip ofmt d a =
          .ok (j1, j2) ∧
        get_job_status j2 job_id = some rec ∧
        rec.status = .failed ∧ rec.error = some e) ∧
    (∀ r, convert_sync enable pres ip ofmt d a = .ok r →
      ∃ j1 j2 rec, convert_async jobs job_id enable pres ip ofmt d a =
          .ok (j1, j2) ∧
        get_job_status j2 job_id = some rec ∧
        rec.status = .completed ∧ rec.output_file = some r.path) := by
  refine ⟨?_, ?_, ?_⟩
  · cases hs : convert_sync enable pres ip ofmt d a with
    | ok r =>
      exact ⟨(jobSet jobs job_id (inProgressRec job_id),
        jobSet (jobSet jobs job_id (inProgressRec job_id)) job_id
          (completedRec job_id r.path)), by simp [convert_async, hs]⟩
    | error e =>
      exact ⟨(jobSet jobs job_id (inProgressRec job_id),
        jobSet (jobSet jobs job_id (inProgressRec job_id)) job_id
          (failedRec job_id e)), by simp [convert_async, hs]⟩
  · intro e he
    exact ⟨jobSet jobs job_id (inProgressRec job_id),
      jobSet (jobSet jobs job_id (inProgressRec job_id)) job_id
        (failedRec job_id e),
      failedRec job_id e,
      by simp [convert_async, he], get_job_status_set _ _ _, rfl, rfl⟩
  · intro r hr
    exact ⟨jobSet jobs job_id (inProgressRec job_id),
      jobSet (jobSet jobs job_id (inProgressRec job_id)) job_id
        (completedRec job_id r.path),
      completedRec job_id r.path,
      by simp [convert_async, hr], get_job_status_set _ _ _, rfl, rfl⟩

/-- Witness for C5 at a concrete failing conversion with the kernel flag
enabled (so the pipeline error propagates out of `convert_sync`). -/
theorem async_captures_all_failures_witness :
    convert_sync true (.error "Meshing failed") "uploads/cube.step" "stl"
      (1/10) (1/2) = .error "Meshing failed" ∧
    (∃ j1 j2 rec, convert_async [] "job-2" true (.error "Meshing failed")
        "uploads/cube.step" "stl" (1/10) (1/2) = .ok (j1, j2) ∧
      get_job_status j2 "job-2" = some rec ∧
      rec.status = .failed ∧ rec.error = some "Meshing failed") :=
  ⟨rfl,
    (async_captures_all_failures [] "job-2" true (.error "Meshing failed")
      "uploads/cube.step" "stl" (1/10) (1/2)).2.1 "Meshing failed" rfl⟩

/-- C8: Degraded-mode placeholder gating.  A placeholder outcome of
`convert_sync` forces the kernel-availability flag off and a failing
pipeline, and its file content is tagged by the `# Placeholder` header
line; with the kernel available every pipeline failure surfaces as a hard
error (no placeholder); a pipeline success is always returned as real
output. -/
theorem placeholder_gated_on_kernel_availability
    (enable : Bool) (pres : Except String String) (ip ofmt : String)
    (d a : ℚ) :
    (∀ p content,
      convert_sync enable pres ip ofmt d a = .ok (.placeholder p content) →
      enable = false ∧ (∃ e, pres = .error e) ∧
      content.head? = some ("# Placeholder " ++ pyToUpper ofmt ++ " file")) ∧
    (∀ e, enable = true → pres = .error e →
      convert_sync enable pres ip ofmt d a = .error e) ∧
    (∀ p, pres = .ok p →
      convert_sync enable pres ip ofmt d a = .ok (.real p)) := by
  refine ⟨?_, ?_, ?_⟩
  · intro p content h
    cases pres with
    | ok q => simp [convert_sync] at h
    | error e =>
      cases enable with
      | false =>
        simp [convert_sync, placeholderContent] at h
        exact ⟨rfl, ⟨e, rfl⟩, by simp [← h.2, placeholderContent]⟩
      | true => simp [convert_sync] at h
  · intro e hen hpe
    subst hen; subst hpe
    rfl
  · intro p hp
    subst hp
    rfl

/-- Witness for C8: with the kernel enabled a concrete content failure is a
hard error. -/
theorem placeholder_gated_on_kernel_availability_witness :
    convert_sync true (.error "Failed to read STEP file") "uploads/bad.step"
      "stl" (1/10) (1/2) = .error "Failed to read STEP file" :=
  (placeholder_gated_on_kernel_availability true
    (.error "Failed to read STEP file") "uploads/bad.step" "stl"
    (1/10) (1/2)).2.1 "Failed to read STEP file" rfl rfl

/-- C10: Format-list mismatch at the public interface.  `"brep"` is in the
service-level supported-input list but has no converter registered, so the
upload layer accepts any existing `.brep` file while the pipeline's
dispatch raises `Unsupported input format: brep` for it, whatever output
format is requested; the two exposed format lists are not equal as sets. -/
theorem brep_format_mismatch :
    ("brep" ∈ SUPPORTED_INPUT_FORMATS ∧ "brep" ∉ converterKeys) ∧
    (∀ p output_format : String, inputExtOf p = "brep" →
      uploadAccepts p = true ∧
      convertDispatch true p output_format =
        .error "Unsupported input format: brep") ∧
    (∃ f, ¬(f ∈ SUPPORTED_INPUT_FORMATS ↔ f ∈ converterKeys)) := by
  refine ⟨by decide, ?_, ⟨"brep", by decide⟩⟩
  intro p output_format hp
  constructor
  · simp [uploadAccepts, hp, SUPPORTED_INPUT_FORMATS]
  · simp [convertDispatch, hp, converterKeys]

/-- Witness for C10 at the concrete upload `uploads/model.brep`. -/
theorem brep_format_mismatch_witness :
    inputExtOf "uploads/model.brep" = "brep" ∧
    (uploadAccepts "uploads/model.brep" = true ∧
     convertDispatch true "uploads/model.brep" "stl" =
       .error "Unsupported input format: brep") :=
  ⟨by decide,
    brep_format_mismatch.2.1 "uploads/model.brep" "stl" (by decide)⟩

/-- Helper: every path in the cleaned set returned by a pass was already in
the incoming set or names a file of the traversed tree. -/
theorem clean_directory_cleaned_subset (now ttl : Int) (es : List Entry) :
    ∀ (cleaned : List String) (dirPath : String),
      ∀ q ∈ (clean_directory now ttl cleaned dirPath es).2,
        q ∈ cleaned ∨ q ∈ filePaths dirPath es :=
  match es with
  | [] => by
    intro cleaned dirPath q hq
    simp only [clean_directory] at hq
    exact Or.inl hq
  | Entry.file n m :: es => by
    intro cleaned dirPath q hq
    simp only [clean_directory] at hq
    by_cases hc : (is_file_expired now ttl m &&
        !(cleaned.contains (dirPath ++ "/" ++ n))) = true
    · rw [if_pos hc] at hq
      rcases clean_directory_cleaned_subset now ttl es _ dirPath q hq with h | h
      · rcases List.mem_cons.mp h with h | h
        · exact Or.inr (by simp [filePaths, h])
        · exact Or.inl h
      · exact Or.inr (by simp [filePaths, h])
    · rw [if_neg hc] at hq
      rcases clean_directory_cleaned_subset now ttl es cleaned dirPath q hq with h | h
      · exact Or.inl h
      · exact Or.inr (by simp [filePaths, h])
  | Entry.dir n des :: es => by
    intro cleaned dirPath q hq
    simp only [clean_directory] at hq
    have hq2 : q ∈ (clean_directory now ttl
        (clean_directory now ttl cleaned (dirPath ++ "/" ++ n) des).2
        dirPath es).2 := by
      by_cases hc : (clean_directory now ttl cleaned (dirPath ++ "/" ++ n) des).1.isEmpty = true
      · rwa [if_pos hc] at hq
      · rwa [if_neg hc] at hq
    rcases clean_directory_cleaned_subset now ttl es _ dirPath q hq2 with h | h
    · rcases clean_directory_cleaned_subset now ttl des cleaned _ q h with h2 | h2
      · exact Or.inl h2
      · exact Or.inr (by simp [filePaths, h2])
    · exact Or.inr (by simp [filePaths, h])
termination_by sizeOf es

/-- Helper: with pairwise-distinct file paths, none already in the cleaned
set, a cleanup pass computes exactly the reap semantics of C7. -/
theorem clean_directory_eq_reap (now ttl : Int) (es : List Entry) :
    ∀ (cleaned : List String) (dirPath : String),
      (filePaths dirPath es).Nodup →
      (∀ q ∈ filePaths dirPath es, q ∉ cleaned) →
      (clean_directory now ttl cleaned dirPath es).1 = reapSpecC7 now ttl es :=
  match es with
  | [] => by
    intro cleaned dirPath _ _
    simp [clean_directory, reapSpecC7]
  | Entry.file n m :: es => by
    intro cleaned dirPath hnd hdisj
    have hnd' := hnd
    rw [show filePaths dirPath (Entry.file n m :: es) =
      (dirPath ++ "/" ++ n) :: filePaths dirPath es from by simp [filePaths],
      List.nodup_cons] at hnd'
    have hp : (dirPath ++ "/" ++ n) ∉ cleaned :=
      hdisj _ (by simp [filePaths])
    have hcontains : cleaned.contains (dirPath ++ "/" ++ n) = false := by
      simpa using hp
    simp only [clean_directory, reapSpecC7, hcontains, Bool.not_false,
      Bool.and_true]
    by_cases hex : is_file_expired now ttl m = true
    · rw [if_pos hex, if_pos hex]
      apply clean_directory_eq_reap now ttl es _ dirPath hnd'.2
      intro q hq
      rw [List.mem_cons]
      rintro (hq1 | hq2)
      · exact hnd'.1 (hq1 ▸ hq)
      · exact hdisj q (by simp [filePaths, hq]) hq2
    · rw [if_neg hex, if_neg hex]
      have := clean_directory_eq_reap now ttl es cleaned dirPath hnd'.2
        (fun q hq => hdisj q (by simp [filePaths, hq]))
      rw [this]
  | Entry.dir n des :: es => by
    intro cleaned dirPath hnd hdisj
    have hsplit : filePaths dirPath (Entry.dir n des :: es) =
        filePaths (dirPath ++ "/" ++ n) des ++ filePaths dirPath es := by
      simp [filePaths]
    rw [hsplit, List.nodup_append] at hnd
    obtain ⟨hnd1, hnd2, hdj⟩ := hnd
    have hdisj1 : ∀ q ∈ filePaths (dirPath ++ "/" ++ n) des, q ∉ cleaned :=
      fun q hq => hdisj q (by rw [hsplit]; exact List.mem_append_left _ hq)
    have hdisj2 : ∀ q ∈ filePaths dirPath es, q ∉ cleaned :=
      fun q hq => hdisj q (by rw [hsplit]; exact List.mem_append_right _ hq)
    have hsub : (clean_directory now ttl cleaned (dirPath ++ "/" ++ n) des).1 =
        reapSpecC7 now ttl des :=
      clean_directory_eq_reap now ttl des cleaned _ hnd1 hdisj1
    have hrest : (clean_directory now ttl
        (clean_directory now ttl cleaned (dirPath ++ "/" ++ n) des).2
        dirPath es).1 = reapSpecC7 now ttl es := by
      apply clean_directory_eq_reap now ttl es _ dirPath hnd2
      intro q hq hq2
      rcases clean_directory_cleaned_subset now ttl des cleaned _ q hq2 with h | h
      · exact hdisj2 q hq h
      · exact hdj h hq
    simp only [clean_directory, reapSpecC7]
    by_cases hc : (clean_directory now ttl cleaned
        (dirPath ++ "/" ++ n) des).1.isEmpty = true
    · rw [if_pos hc]
      rw [hsub] at hc
      rw [if_pos hc]
      exact hrest
    · rw [if_neg hc]
      rw [hsub] at hc
      rw [if_neg hc]
      simp only [hsub, hrest]
termination_by sizeOf es

/-- Helper: a file survives the reap semantics iff it is present and not
older than the TTL. -/
theorem reap_file_mem (now ttl : Int) (n : String) (m : Int) (es : List Entry) :
    Entry.file n m ∈ reapSpecC7 now ttl es ↔
      (Entry.file n m ∈ es ∧ now - m ≤ ttl) := by
  induction es with
  | nil => simp [reapSpecC7]
  | cons e es ih =>
    cases e with
    | file n2 m2 =>
      by_cases hex : is_file_expired now ttl m2 = true
      · have hm2 : now - m2 > ttl := by
          simpa [is_file_expired] using hex
        rw [show reapSpecC7 now ttl (Entry.file n2 m2 :: es) =
          reapSpecC7 now ttl es from by simp [reapSpecC7, hex]]
        rw [ih]
        constructor
        · rintro ⟨h1, h2⟩
          exact ⟨List.mem_cons_of_mem _ h1, h2⟩
        · rintro ⟨h1, h2⟩
          rcases List.mem_cons.mp h1 with h | h
          · injection h with hn hm
            omega
          · exact ⟨h, h2⟩
      · have hm2 : ¬ now - m2 > ttl := by
          simpa [is_file_expired] using hex
        rw [show reapSpecC7 now ttl (Entry.file n2 m2 :: es) =
          Entry.file n2 m2 :: reapSpecC7 now ttl es from by
            simp [reapSpecC7, hex]]
        constructor
        · intro h
          rcases List.mem_cons.mp h with h | h
          · injection h with hn hm
            subst hn; subst hm
            exact ⟨List.mem_cons_self _ _, by omega⟩
          · obtain ⟨h1, h2⟩ := ih.mp h
            exact ⟨List.mem_cons_of_mem _ h1, h2⟩
        · rintro ⟨h1, h2⟩
          rcases List.mem_cons.mp h1 with h | h
          · exact h ▸ List.mem_cons_self _ _
          · exact List.mem_cons_of_mem _ (ih.mpr ⟨h, h2⟩)
    | dir n2 des2 =>
      have hstruct : Entry.file n m ∈ reapSpecC7 now ttl (Entry.dir n2 des2 :: es) ↔
          Entry.file n m ∈ reapSpecC7 now ttl es := by
        simp only [reapSpecC7]
        by_cases hc : (reapSpecC7 now ttl des2).isEmpty = true
        · rw [if_pos hc]
        · rw [if_neg hc, List.mem_cons]
          simp
      rw [hstruct, ih]
      simp

/-- Helper: the reap semantics distributes over concatenation of sibling
entry lists. -/
theorem reap_append (now ttl : Int) (es1 es2 : List Entry) :
    reapSpecC7 now ttl (es1 ++ es2) =
      reapSpecC7 now ttl es1 ++ reapSpecC7 now ttl es2 := by
  induction es1 with
  | nil => simp [reapSpecC7]
  | cons e es ih =>
    cases e with
    | file n m =>
      by_cases hex : is_file_expired now ttl m = true
      · simp [reapSpecC7, hex, ih]
      · simp [reapSpecC7, hex, ih]
    | dir n des =>
      simp only [List.cons_append, reapSpecC7]
      by_cases hc : (reapSpecC7 now ttl des).isEmpty = true
      · rw [if_pos hc, if_pos hc, ih]
      · rw [if_neg hc, if_neg hc, ih, List.cons_append]

/-- C7: File-reaper cycle semantics.  Provided the tree's file paths are
pairwise distinct and none is in the incoming recently-cleaned set (as at
service start, where the set is empty), one pass equals the reap
semantics: every file strictly older than the TTL is deleted, every file
at most TTL old survives, a subdirectory whose reaped content is empty is
removed, and a directory still containing a non-expired file stays, with
its reaped content, in place. -/
theorem file_reaper_pass_semantics (now ttl : Int) (cleaned : List String)
    (dirPath : String) (es : List Entry)
    (hnd : (filePaths dirPath es).Nodup)
    (hdisj : ∀ q ∈ filePaths dirPath es, q ∉ cleaned) :
    (clean_directory now ttl cleaned dirPath es).1 = reapSpecC7 now ttl es ∧
    (∀ n m, Entry.file n m ∈ (clean_directory now ttl cleaned dirPath es).1 ↔
      (Entry.file n m ∈ es ∧ now - m ≤ ttl)) ∧
    (∀ n des es1 es2, es = es1 ++ Entry.dir n des :: es2 →
      reapSpecC7 now ttl des = [] →
      (clean_directory now ttl cleaned dirPath es).1 =
        reapSpecC7 now ttl es1 ++ reapSpecC7 now ttl es2) ∧
    (∀ n des es1 es2 n2 m2, es = es1 ++ Entry.dir n des :: es2 →
      Entry.file n2 m2 ∈ des → now - m2 ≤ ttl →
      (clean_directory now ttl cleaned dirPath es).1 =
        reapSpecC7 now ttl es1 ++
          Entry.dir n (reapSpecC7 now ttl des) :: reapSpecC7 now ttl es2) := by
  have h1 := clean_directory_eq_reap now ttl es cleaned dirPath hnd hdisj
  refine ⟨h1, ?_, ?_, ?_⟩
  · intro n m
    rw [h1]
    exact reap_file_mem now ttl n m es
  · intro n des es1 es2 hsplit hempty
    subst hsplit
    rw [h1, reap_append]
    simp [reapSpecC7, hempty]
  · intro n des es1 es2 n2 m2 hsplit hfmem hfresh
    subst hsplit
    have hne : reapSpecC7 now ttl des ≠ [] := by
      intro h0
      have hm := (reap_file_mem now ttl n2 m2 des).mpr ⟨hfmem, hfresh⟩
      rw [h0] at hm
      cases hm
    rw [h1, reap_append]
    cases hdes : reapSpecC7 now ttl des with
    | nil => exact absurd hdes hne
    | cons a as => simp [reapSpecC7, hdes]

/-- Witness for C7 on a concrete tree at `now = 100`, `ttl = 30`: an
expired file, a fresh file, a subdirectory holding only an expired file,
and a subdirectory holding a fresh one, starting from the empty cleaned
set. -/
theorem file_reaper_pass_semantics_witness :
    (filePaths "outputs"
      [Entry.file "old.stl" 0, Entry.file "fresh.stl" 90,
       Entry.dir "sub" [Entry.file "old2.stl" 10],
       Entry.dir "keep" [Entry.file "fresh2.stl" 95]]).Nodup ∧
    (∀ q ∈ filePaths "outputs"
      [Entry.file "old.stl" 0, Entry.file "fresh.stl" 90,
       Entry.dir "sub" [Entry.file "old2.stl" 10],
       Entry.dir "keep" [Entry.file "fresh2.stl" 95]], q ∉ ([] : List String)) ∧
    (clean_directory 100 30 [] "outputs"
      [Entry.file "old.stl" 0, Entry.file "fresh.stl" 90,
       Entry.dir "sub" [Entry.file "old2.stl" 10],
       Entry.dir "keep" [Entry.file "fresh2.stl" 95]]).1 =
      reapSpecC7 100 30
        [Entry.file "old.stl" 0, Entry.file "fresh.stl" 90,
         Entry.dir "sub" [Entry.file "old2.stl" 10],
         Entry.dir "keep" [Entry.file "fresh2.stl" 95]] :=
  ⟨by simp [filePaths], by simp,
    (file_reaper_pass_semantics 100 30 [] "outputs"
      [Entry.file "old.stl" 0, Entry.file "fresh.stl" 90,
       Entry.dir "sub" [Entry.file "old2.stl" 10],
       Entry.dir "keep" [Entry.file "fresh2.stl" 95]]
      (by simp [filePaths]) (by simp)).1⟩

/-- Helper: accumulating one face preserves the accumulator's length. -/
theorem accumFace_length (g : Nat × Nat × Nat → Vec3) (acc : List Vec3)
    (f : Nat × Nat × Nat) : (accumFace g acc f).length = acc.length := by
  simp [accumFace]

/-- Helper: reading slot `i` after the add-update at slot `j`. -/
theorem getD_set_add (l : List Vec3) (j i : Nat) (x : Vec3)
    (hi : i < l.length) :
    (l.set j (l.getD j 0 + x)).getD i 0 =
      l.getD i 0 + (if j = i then x else 0) := by
  by_cases h : j = i
  · subst h
    rw [if_pos rfl, List.getD_eq_getElem?_getD,
      List.getElem?_set_eq_of_lt _ hi]
    rfl
  · rw [if_neg h, add_zero, List.getD_eq_getElem?_getD,
      List.getElem?_set_ne h, ← List.getD_eq_getElem?_getD]

/-- Helper: slot `i` after accumulating face `f` gains `occ i f` copies of
the face vector `g f`. -/
theorem accumFace_getD (g : Nat × Nat × Nat → Vec3) (acc : List Vec3)
    (f : Nat × Nat × Nat) (i : Nat) (hi : i < acc.length) :
    (accumFace g acc f).getD i 0 = acc.getD i 0 + occ i f • g f := by
  simp only [accumFace]
  rw [getD_set_add _ _ _ _ (by simpa using hi),
    getD_set_add _ _ _ _ (by simpa using hi),
    getD_set_add _ _ _ _ hi]
  by_cases h1 : f.1 = i <;> by_cases h2 : f.2.1 = i <;>
    by_cases h3 : f.2.2 = i <;>
    simp [occ, h1, h2, h3, add_smul, one_smul, zero_smul] <;> abel

/-- Helper: folding the accumulation over all faces adds, slot by slot,
the sum of each face's scaled contribution. -/
theorem foldl_accumFace_getD (g : Nat × Nat × Nat → Vec3)
    (faces : List (Nat × Nat × Nat)) :
    ∀ (acc : List Vec3) (i : Nat), i < acc.length →
      (faces.foldl (accumFace g) acc).getD i 0 =
        acc.getD i 0 + (faces.map (fun f => occ i f • g f)).sum := by
  induction faces with
  | nil => intro acc i _; simp
  | cons f faces ih =>
    intro acc i hi
    rw [List.foldl_cons, ih _ i (by simpa [accumFace_length] using hi),
      accumFace_getD g acc f i hi, List.map_cons, List.sum_cons, add_assoc]

/-- Helper: the fold preserves the accumulator's length. -/
theorem foldl_accumFace_length (g : Nat × Nat × Nat → Vec3)
    (faces : List (Nat × Nat × Nat)) :
    ∀ acc : List Vec3, (faces.foldl (accumFace g) acc).length = acc.length := by
  induction faces with
  | nil => intro acc; rfl
  | cons f faces ih =>
    intro acc
    rw [List.foldl_cons, ih, accumFace_length]

/-- Helper: entry `i` of the whole computation (fold from zero
accumulators, then final normalisation) in closed form. -/
theorem map_fold_getD (g : Nat × Nat × Nat → Vec3) (vertices : List Vec3)
    (faces : List (Nat × Nat × Nat)) (i : Nat) (hi : i < vertices.length) :
    ((faces.foldl (accumFace g) (List.replicate vertices.length 0)).map
      normalizePos).getD i 0 =
      normalizePos ((faces.map (fun f => occ i f • g f)).sum) := by
  have hlen : (faces.foldl (accumFace g)
      (List.replicate vertices.length (0 : Vec3))).length = vertices.length := by
    rw [foldl_accumFace_length]
    exact List.length_replicate _ _
  have hfold := foldl_accumFace_getD g faces
    (List.replicate vertices.length (0 : Vec3)) i (by simpa using hi)
  have hrep : (List.replicate vertices.length (0 : Vec3)).getD i 0 = 0 := by
    rw [List.getD_eq_getElem?_getD, List.getElem?_replicate]
    split <;> rfl
  rw [hrep, zero_add] at hfold
  rw [List.getD_eq_getElem?_getD, List.getElem?_map,
    List.getElem?_eq_getElem (by rw [hlen]; exact hi)]
  simp only [Option.map_some', Option.getD_some]
  rw [show (faces.foldl (accumFace g)
      (List.replicate vertices.length (0 : Vec3)))[i] =
    (faces.foldl (accumFace g)
      (List.replicate vertices.length (0 : Vec3))).getD i 0 from by
      rw [List.getD_eq_getElem?_getD,
        List.getElem?_eq_getElem (by rw [hlen]; exact hi)]
      rfl]
  rw [hfold]

/-- Helper: the norm is nonnegative. -/
theorem vnorm_nonneg (v : Vec3) : 0 ≤ vnorm v := Real.sqrt_nonneg _

/-- Helper: a vector of zero norm is the zero vector. -/
theorem vnorm_eq_zero_imp (v : Vec3) (h : vnorm v = 0) : v = 0 := by
  obtain ⟨x, y, z⟩ := v
  simp only [vnorm] at h
  have hs : x ^ 2 + y ^ 2 + z ^ 2 = 0 := by
    have := Real.sqrt_eq_zero (by positivity) |>.mp h
    exact this
  have hx : x = 0 := by nlinarith [sq_nonneg x, sq_nonneg y, sq_nonneg z]
  have hy : y = 0 := by nlinarith [sq_nonneg x, sq_nonneg y, sq_nonneg z]
  have hz : z = 0 := by nlinarith [sq_nonneg x, sq_nonneg y, sq_nonneg z]
  simp [hx, hy, hz, Prod.ext_iff]

/-- Helper: norm scales by the absolute value of the scalar. -/
theorem vnorm_smul (c : ℝ) (v : Vec3) : vnorm (c • v) = |c| * vnorm v := by
  obtain ⟨x, y, z⟩ := v
  simp only [vnorm, Prod.smul_fst, Prod.smul_snd, smul_eq_mul]
  rw [show (c * x) ^ 2 + (c * y) ^ 2 + (c * z) ^ 2 =
    c ^ 2 * (x ^ 2 + y ^ 2 + z ^ 2) from by ring]
  rw [Real.sqrt_mul (sq_nonneg c), Real.sqrt_sq_eq_abs]

/-- Helper: guarded normalisation yields a unit vector or the zero vector;
no division by zero occurs. -/
theorem normalizePos_unit_or_zero (v : Vec3) :
    vnorm (normalizePos v) = 1 ∨ normalizePos v = 0 := by
  by_cases h : 0 < vnorm v
  · left
    rw [normalizePos, if_pos h, vnorm_smul, abs_of_nonneg (by positivity),
      inv_mul_cancel₀ (ne_of_gt h)]
  · right
    have h0 : vnorm v = 0 := le_antisymm (not_lt.mp h) (vnorm_nonneg v)
    rw [normalizePos, if_neg h]
    exact vnorm_eq_zero_imp v h0

/-- C6 (amended): entry `i` of the computed vertex normals is the guarded
normalisation of the sum, over all faces, of `occ i f` copies of the
face's *normalised* cross product (`normalizePos (rawFaceNormal …)`), and
every computed normal is a unit vector or the zero vector — zero-length
accumulations stay zero and no division by zero occurs. -/
theorem vertex_normals_normalized_accumulation (vertices : List Vec3)
    (faces : List (Nat × Nat × Nat)) (i : Nat) (hi : i < vertices.length) :
    (calculate_vertex_normals vertices faces).getD i 0 =
      normalizePos ((faces.map (fun f =>
        occ i f • normalizePos (rawFaceNormal vertices f))).sum) ∧
    (vnorm ((calculate_vertex_normals vertices faces).getD i 0) = 1 ∨
      (calculate_vertex_normals vertices faces).getD i 0 = 0) := by
  have h := map_fold_getD (faceNormal vertices) vertices faces i hi
  constructor
  · simpa only [calculate_vertex_normals, faceNormal] using h
  · rw [show (calculate_vertex_normals vertices faces).getD i 0 =
      normalizePos ((faces.map (fun f =>
        occ i f • faceNormal vertices f)).sum) from h]
    exact normalizePos_unit_or_zero _

/-- Witness for the amended C6 at a one-vertex, zero-face mesh. -/
theorem vertex_normals_normalized_accumulation_witness :
    (0 : Nat) < ([((0 : ℝ), (0 : ℝ), (0 : ℝ))] : List Vec3).length ∧
    ((calculate_vertex_normals [((0 : ℝ), (0 : ℝ), (0 : ℝ))] []).getD 0 0 =
      normalizePos ((([] : List (Nat × Nat × Nat)).map (fun f =>
        occ 0 f • normalizePos
          (rawFaceNormal [((0 : ℝ), (0 : ℝ), (0 : ℝ))] f))).sum) ∧
     (vnorm ((calculate_vertex_normals
        [((0 : ℝ), (0 : ℝ), (0 : ℝ))] []).getD 0 0) = 1 ∨
      (calculate_vertex_normals [((0 : ℝ), (0 : ℝ), (0 : ℝ))] []).getD 0 0
        = 0)) :=
  ⟨by norm_num,
    vertex_normals_normalized_accumulation
      [((0 : ℝ), (0 : ℝ), (0 : ℝ))] [] 0 (by norm_num)⟩

/-- C6 counterexample: at this concrete mesh — two faces meeting at vertex
0 whose cross products have magnitudes 5 and 1 — the source's computation
(which normalises each face normal *before* accumulating) differs from the
claim's unnormalised accumulation. -/
theorem vertex_normals_claim_counterexample :
    calculate_vertex_normals
      [((0 : ℝ), (0 : ℝ), (0 : ℝ)), ((0 : ℝ), (0 : ℝ), (1 : ℝ)),
       ((4 : ℝ), (-3 : ℝ), (0 : ℝ)), ((1 : ℝ), (0 : ℝ), (0 : ℝ)),
       ((0 : ℝ), (1 : ℝ), (0 : ℝ))]
      [(0, 1, 2), (0, 3, 4)] ≠
    vertexNormalsClaimC6
      [((0 : ℝ), (0 : ℝ), (0 : ℝ)), ((0 : ℝ), (0 : ℝ), (1 : ℝ)),
       ((4 : ℝ), (-3 : ℝ), (0 : ℝ)), ((1 : ℝ), (0 : ℝ), (0 : ℝ)),
       ((0 : ℝ), (1 : ℝ), (0 : ℝ))]
      [(0, 1, 2), (0, 3, 4)] := by
  intro heq
  set V : List Vec3 :=
    [((0 : ℝ), (0 : ℝ), (0 : ℝ)), ((0 : ℝ), (0 : ℝ), (1 : ℝ)),
     ((4 : ℝ), (-3 : ℝ), (0 : ℝ)), ((1 : ℝ), (0 : ℝ), (0 : ℝ)),
     ((0 : ℝ), (1 : ℝ), (0 : ℝ))] with hV
  set F : List (Nat × Nat × Nat) := [(0, 1, 2), (0, 3, 4)] with hF
  have hraw1 : rawFaceNormal V (0, 1, 2) = ((3 : ℝ), (4 : ℝ), (0 : ℝ)) := by
    rw [hV]
    norm_num [rawFaceNormal, cross, Prod.ext_iff]
  have hraw2 : rawFaceNormal V (0, 3, 4) = ((0 : ℝ), (0 : ℝ), (1 : ℝ)) := by
    rw [hV]
    norm_num [rawFaceNormal, cross, Prod.ext_iff]
  have h5 : vnorm ((3 : ℝ), (4 : ℝ), (0 : ℝ)) = 5 := by
    simp only [vnorm]
    rw [show (3 : ℝ) ^ 2 + (4 : ℝ) ^ 2 + (0 : ℝ) ^ 2 = 5 ^ 2 from by norm_num,
      Real.sqrt_sq (by norm_num : (0 : ℝ) ≤ 5)]
  have h1n : vnorm ((0 : ℝ), (0 : ℝ), (1 : ℝ)) = 1 := by
    simp only [vnorm]
    rw [show (0 : ℝ) ^ 2 + (0 : ℝ) ^ 2 + (1 : ℝ) ^ 2 = 1 from by norm_num,
      Real.sqrt_one]
  have hface1 : faceNormal V (0, 1, 2) = ((3/5 : ℝ), (4/5 : ℝ), (0 : ℝ)) := by
    rw [faceNormal, hraw1]
    simp only [normalizePos, h5]
    rw [if_pos (by norm_num)]
    norm_num [Prod.ext_iff, Prod.smul_fst, Prod.smul_snd, smul_eq_mul]
  have hface2 : faceNormal V (0, 3, 4) = ((0 : ℝ), (0 : ℝ), (1 : ℝ)) := by
    rw [faceNormal, hraw2]
    simp only [normalizePos, h1n]
    rw [if_pos one_pos]
    norm_num [Prod.ext_iff, Prod.smul_fst, Prod.smul_snd, smul_eq_mul]
  have hocc1 : occ 0 ((0 : Nat), (1 : Nat), (2 : Nat)) = 1 := by
    norm_num [occ]
  have hocc2 : occ 0 ((0 : Nat), (3 : Nat), (4 : Nat)) = 1 := by
    norm_num [occ]
  have hsum1 : ((3/5 : ℝ), (4/5 : ℝ), (0 : ℝ)) + (((0 : ℝ), (0 : ℝ), (1 : ℝ))
      + (0 : Vec3)) = ((3/5 : ℝ), (4/5 : ℝ), (1 : ℝ)) := by
    norm_num [Prod.ext_iff]
  have hsum2 : ((3 : ℝ), (4 : ℝ), (0 : ℝ)) + (((0 : ℝ), (0 : ℝ), (1 : ℝ))
      + (0 : Vec3)) = ((3 : ℝ), (4 : ℝ), (1 : ℝ)) := by
    norm_num [Prod.ext_iff]
  have hs2 : vnorm ((3/5 : ℝ), (4/5 : ℝ), (1 : ℝ)) = Real.sqrt 2 := by
    simp only [vnorm]
    norm_num
  have hs26 : vnorm ((3 : ℝ), (4 : ℝ), (1 : ℝ)) = Real.sqrt 26 := by
    simp only [vnorm]
    norm_num
  have hcode0 : (calculate_vertex_normals V F).getD 0 0 =
      (Real.sqrt 2)⁻¹ • ((3/5 : ℝ), (4/5 : ℝ), (1 : ℝ)) := by
    have h := map_fold_getD (faceNormal V) V F 0 (by rw [hV]; norm_num)
    rw [show (calculate_vertex_normals V F).getD 0 0 =
      normalizePos ((F.map (fun f => occ 0 f • faceNormal V f)).sum) from by
        simp only [calculate_vertex_normals]; exact h]
    rw [hF]
    simp only [List.map_cons, List.map_nil, List.sum_cons, List.sum_nil]
    rw [hocc1, hocc2, hface1, hface2, one_smul, one_smul, hsum1]
    simp only [normalizePos, hs2]
    rw [if_pos (Real.sqrt_pos.mpr (by norm_num))]
  have hspec0 : (vertexNormalsClaimC6 V F).getD 0 0 =
      (Real.sqrt 26)⁻¹ • ((3 : ℝ), (4 : ℝ), (1 : ℝ)) := by
    have h := map_fold_getD (rawFaceNormal V) V F 0 (by rw [hV]; norm_num)
    rw [show (vertexNormalsClaimC6 V F).getD 0 0 =
      normalizePos ((F.map (fun f => occ 0 f • rawFaceNormal V f)).sum) from by
        simp only [vertexNormalsClaimC6]; exact h]
    rw [hF]
    simp only [List.map_cons, List.map_nil, List.sum_cons, List.sum_nil]
    rw [hocc1, hocc2, hraw1, hraw2, one_smul, one_smul, hsum2]
    simp only [normalizePos, hs26]
    rw [if_pos (Real.sqrt_pos.mpr (by norm_num))]
  have h0 : (calculate_vertex_normals V F).getD 0 0 =
      (vertexNormalsClaimC6 V F).getD 0 0 := by rw [heq]
  rw [hcode0, hspec0] at h0
  have h3 := congrArg (fun w : Vec3 => w.2.2) h0
  simp only [Prod.smul_snd, smul_eq_mul, mul_one] at h3
  have hsq : Real.sqrt 2 = Real.sqrt 26 := inv_inj.mp h3
  have h226 : Real.sqrt 2 ^ 2 = Real.sqrt 26 ^ 2 := by rw [hsq]
  rw [Real.sq_sqrt (by norm_num : (0 : ℝ) ≤ 2),
    Real.sq_sqrt (by norm_num : (0 : ℝ) ≤ 26)] at h226
  norm_num at h226

end KernelApi
